import Mathlib

/-!
Verification of the game simulation core of a fixed-formation 2D shooter
(`src/utils/gameLogic.ts`, `src/utils/objectPool.ts`,
`src/utils/gameStateManager.ts`, `src/hooks/useGameLoop.ts`,
`src/config/gameConfig.ts`).

JavaScript numbers are modelled as `Int` where the code only adds,
subtracts, multiplies and compares integer-valued quantities, and as `ℚ`
for the scheduler, whose fixed tick duration is the non-integer 16.67.
Mutable class state (`ObjectPool`, `GameStateManager`) is modelled by
explicit state passing: each method becomes a function from the state to
the updated state.  The `emitEvent` observer callback is modelled by a
trace: an emitted event is appended to an `events` list carried in the
manager state.
-/

namespace SpaceInvaders

/-! ## Configuration constants (`src/config/gameConfig.ts`) -/

def canvasWidth : Int := 800
def canvasHeight : Int := 600
def playerWidth : Int := 50
def playerHeight : Int := 30
def playerSpeed : Int := 5
def playerStartX : Int := 400
def playerStartY : Int := 550
def enemyWidth : Int := 40
def enemyHeight : Int := 30
def enemySpeed : Int := 1
def enemyRows : Nat := 5
def enemyCols : Nat := 10
def spacingHorizontal : Int := 20
def spacingVertical : Int := 15
def enemyStartX : Int := 50
def enemyStartY : Int := 50
def dropDistance : Int := 20
def bulletWidth : Int := 4
def bulletHeight : Int := 10
def bulletSpeed : Int := 7
def initialLives : Int := 3
def pointsPerEnemy : Int := 10

/-! ## Data model (`src/types/game.ts`) -/

/-- `CollisionBox` from `src/types/game.ts`: the shared geometry fields read
by `checkCollision`. -/
structure CollisionBox where
  x : Int
  y : Int
  width : Int
  height : Int
  deriving DecidableEq, Repr

/-- `Player` from `src/types/game.ts`. -/
structure Player where
  x : Int
  y : Int
  width : Int
  height : Int
  speed : Int
  active : Bool
  lives : Int
  deriving DecidableEq, Repr

/-- `Bullet` from `src/types/game.ts`. -/
structure Bullet where
  x : Int
  y : Int
  width : Int
  height : Int
  speed : Int
  active : Bool
  deriving DecidableEq, Repr

/-- `Enemy` from `src/types/game.ts`. -/
structure Enemy where
  x : Int
  y : Int
  width : Int
  height : Int
  speed : Int
  active : Bool
  direction : Int
  animFrame : Int
  row : Nat
  col : Nat
  deriving DecidableEq, Repr

/-- `Particle` from `src/types/game.ts`. -/
structure Particle where
  x : Int
  y : Int
  vx : Int
  vy : Int
  life : Int
  maxLife : Int
  color : String
  deriving DecidableEq, Repr

/-- The structural upcast TypeScript performs when a `Bullet` is passed
where a `CollisionBox` is expected. -/
def Bullet.box (b : Bullet) : CollisionBox :=
  { x := b.x, y := b.y, width := b.width, height := b.height }

/-- The structural upcast of an `Enemy` to its `CollisionBox` fields. -/
def Enemy.box (e : Enemy) : CollisionBox :=
  { x := e.x, y := e.y, width := e.width, height := e.height }

/-- The structural upcast of a `Player` to its `CollisionBox` fields. -/
def Player.box (p : Player) : CollisionBox :=
  { x := p.x, y := p.y, width := p.width, height := p.height }

/-! ## Geometry and collision (`src/utils/gameLogic.ts`) -/

/-- `checkCollision` from `src/utils/gameLogic.ts` (lines 4-11):
axis-aligned rectangle overlap with strict inequalities. -/
def checkCollision (obj1 obj2 : CollisionBox) : Bool :=
  decide (obj1.x < obj2.x + obj2.width) &&
  decide (obj1.x + obj1.width > obj2.x) &&
  decide (obj1.y < obj2.y + obj2.height) &&
  decide (obj1.y + obj1.height > obj2.y)

/-- Unfolding lemma: `checkCollision` decides the four strict
inequalities. -/
lemma checkCollision_eq_true_iff (a b : CollisionBox) :
    checkCollision a b = true ↔
      (a.x < b.x + b.width ∧ a.x + a.width > b.x ∧
       a.y < b.y + b.height ∧ a.y + a.height > b.y) := by
  simp [checkCollision, and_assoc]

/-- **C7** — `checkCollision(a,b)` is true iff
`a.x < b.x + b.width ∧ a.x + a.width > b.x ∧ a.y < b.y + b.height ∧
a.y + a.height > b.y`; consequently it is symmetric, and the
edge-touching rectangles `{0,0,20,20}` and `{20,0,20,20}` (shared
boundary, zero overlap area) do not collide. -/
theorem checkCollision_iff_and_symm :
    (∀ a b : CollisionBox,
        checkCollision a b = true ↔
          (a.x < b.x + b.width ∧ a.x + a.width > b.x ∧
           a.y < b.y + b.height ∧ a.y + a.height > b.y)) ∧
    (∀ a b : CollisionBox, checkCollision a b = checkCollision b a) ∧
    checkCollision ⟨0, 0, 20, 20⟩ ⟨20, 0, 20, 20⟩ = false := by
  refine ⟨checkCollision_eq_true_iff, ?_, by decide⟩
  intro a b
  rw [Bool.eq_iff_iff, checkCollision_eq_true_iff, checkCollision_eq_true_iff]
  constructor <;> (intro h; exact ⟨by omega, by omega, by omega, by omega⟩)

/-! ## Formation controller (`src/utils/gameLogic.ts`) -/

/-- `createEnemyGrid` from `src/utils/gameLogic.ts` (lines 26-48): the
nested row/column loop, rows outermost. -/
def createEnemyGrid : List Enemy :=
  (List.range enemyRows).flatMap fun (row : Nat) =>
    (List.range enemyCols).map fun (col : Nat) =>
      { x := (col : Int) * (enemyWidth + spacingHorizontal) + enemyStartX
        y := (row : Int) * (enemyHeight + spacingVertical) + enemyStartY
        width := enemyWidth
        height := enemyHeight
        speed := enemySpeed
        active := true
        direction := 1
        animFrame := 0
        row := row
        col := col }

/-- The boundary scan of `updateEnemyPositions` (lines 55-62): the
`forEach` that sets `shouldMoveDown` when any active enemy's projected x
reaches or crosses a horizontal boundary. -/
def shouldMoveDownCheck (enemies : List Enemy) : Bool :=
  enemies.any fun enemy =>
    enemy.active &&
      (decide (enemy.x + enemy.speed * enemy.direction ≤ 0) ||
       decide (enemy.x + enemy.speed * enemy.direction ≥ canvasWidth - enemy.width))

/-- `updateEnemyPositions` from `src/utils/gameLogic.ts` (lines 50-83):
first the boundary scan, then the `map` that either flips and drops every
active enemy or steps it horizontally. -/
def updateEnemyPositions (enemies : List Enemy) : Bool × List Enemy :=
  let shouldMoveDown := shouldMoveDownCheck enemies
  let updatedEnemies := enemies.map fun enemy =>
    if !enemy.active then enemy
    else if shouldMoveDown then
      { enemy with direction := enemy.direction * -1, y := enemy.y + dropDistance }
    else
      { enemy with x := enemy.x + enemy.speed * enemy.direction }
  (shouldMoveDown, updatedEnemies)

lemma updateEnemyPositions_length (enemies : List Enemy) :
    (updateEnemyPositions enemies).2.length = enemies.length := by
  simp [updateEnemyPositions]

/-- **C1** — `updateEnemyPositions` performs a formation-wide flip and
drop: if any active enemy's projected x (`x + speed*direction`) is `≤ 0`
or `≥ canvasWidth - width`, every active enemy has its direction negated
and its y increased by `dropDistance` with zero horizontal displacement;
otherwise every active enemy's x changes by exactly `speed*direction`;
inactive enemies are excluded from the boundary check and returned
entirely unchanged. -/
theorem updateEnemyPositions_flip_and_drop (enemies : List Enemy) :
    (updateEnemyPositions enemies).1 =
      (enemies.any fun e => e.active &&
        (decide (e.x + e.speed * e.direction ≤ 0) ||
         decide (e.x + e.speed * e.direction ≥ canvasWidth - e.width))) ∧
    (updateEnemyPositions enemies).2.length = enemies.length ∧
    ∀ i (h : i < enemies.length),
      ((enemies.get ⟨i, h⟩).active = false →
        (updateEnemyPositions enemies).2.get
            ⟨i, by rw [updateEnemyPositions_length]; exact h⟩ =
          enemies.get ⟨i, h⟩) ∧
      ((enemies.get ⟨i, h⟩).active = true →
        (updateEnemyPositions enemies).1 = true →
        (updateEnemyPositions enemies).2.get
            ⟨i, by rw [updateEnemyPositions_length]; exact h⟩ =
          { enemies.get ⟨i, h⟩ with
              direction := (enemies.get ⟨i, h⟩).direction * -1,
              y := (enemies.get ⟨i, h⟩).y + dropDistance }) ∧
      ((enemies.get ⟨i, h⟩).active = true →
        (updateEnemyPositions enemies).1 = false →
        (updateEnemyPositions enemies).2.get
            ⟨i, by rw [updateEnemyPositions_length]; exact h⟩ =
          { enemies.get ⟨i, h⟩ with
              x := (enemies.get ⟨i, h⟩).x +
                (enemies.get ⟨i, h⟩).speed * (enemies.get ⟨i, h⟩).direction }) := by
  refine ⟨rfl, updateEnemyPositions_length enemies, fun i h => ?_⟩
  refine ⟨fun ha => ?_, fun ha hs => ?_, fun ha hs => ?_⟩
  · simp only [updateEnemyPositions, List.get_eq_getElem, List.getElem_map] at ha ⊢
    simp [ha]
  · simp only [updateEnemyPositions] at hs
    simp only [updateEnemyPositions, List.get_eq_getElem, List.getElem_map] at ha ⊢
    simp [ha, hs]
  · simp only [updateEnemyPositions] at hs
    simp only [updateEnemyPositions, List.get_eq_getElem, List.getElem_map] at ha ⊢
    simp [ha, hs]

/-- Witness for C1: a two-enemy formation (one active near the right
boundary, one inactive) flips and drops the active enemy and leaves the
inactive one unchanged. -/
theorem updateEnemyPositions_flip_and_drop_witness :
    let e0 : Enemy :=
      { x := 759, y := 50, width := 40, height := 30, speed := 1,
        active := true, direction := 1, animFrame := 0, row := 0, col := 0 }
    let e1 : Enemy :=
      { x := 100, y := 50, width := 40, height := 30, speed := 1,
        active := false, direction := 1, animFrame := 0, row := 0, col := 1 }
    (updateEnemyPositions [e0, e1]).2.get ⟨0, by decide⟩ =
        { e0 with direction := -1, y := 70 } ∧
    (updateEnemyPositions [e0, e1]).2.get ⟨1, by decide⟩ = e1 := by
  intro e0 e1
  have h := (updateEnemyPositions_flip_and_drop [e0, e1]).2.2
  exact ⟨((h 0 (by decide)).2.1 (by decide) (by decide)).trans (by decide),
         (h 1 (by decide)).1 (by decide)⟩

/-! ## Entity pool (`src/utils/objectPool.ts`)

Pool instances are identified by a `Nat` id; `createFn` is modelled by a
fresh-id counter `next` (each call to the factory returns a distinct new
instance).  `reset()` mutates an instance in place and does not change its
identity, so it is the identity on ids; the entity-specific `isActive()`
predicate is passed to `update` as a function on ids. -/

/-- The state of an `ObjectPool` (`src/utils/objectPool.ts`, lines 9-14):
`pool` is the free list, `active` the active list, `maxSize` the capacity
bound, and `next` the id the next `createFn()` call returns. -/
structure ObjectPool where
  pool : List Nat
  active : List Nat
  next : Nat
  maxSize : Nat
  deriving DecidableEq, Repr

/-- The `ObjectPool` constructor (lines 15-23): pre-populates `pool` with
`initialSize` fresh instances. -/
def mkObjectPool (initialSize maxSize : Nat) : ObjectPool :=
  { pool := List.range initialSize
    active := []
    next := initialSize
    maxSize := maxSize }

/-- `ObjectPool.get` (lines 25-38): pop a free instance off the end of
`pool` (`Array.prototype.pop`); if none and
`active.length + pool.length < maxSize`, construct a fresh one; push the
obtained instance onto `active`, else return `null`. -/
def ObjectPool.get (p : ObjectPool) : Option Nat × ObjectPool :=
  match p.pool.getLast? with
  | some o =>
      (some o, { p with pool := p.pool.dropLast, active := p.active ++ [o] })
  | none =>
      if p.active.length + p.pool.length < p.maxSize then
        (some p.next,
         { p with next := p.next + 1, active := p.active ++ [p.next] })
      else
        (none, p)

/-- `ObjectPool.release` (lines 40-47): if `obj` is found in `active`
(`indexOf`), splice out its first occurrence, reset it, and push it onto
`pool`; otherwise do nothing. -/
def ObjectPool.release (p : ObjectPool) (obj : Nat) : ObjectPool :=
  if obj ∈ p.active then
    { p with active := p.active.erase obj, pool := p.pool ++ [obj] }
  else
    p

/-- `ObjectPool.releaseAll` (lines 49-55): reset every active instance,
push it onto `pool`, and empty `active`. -/
def ObjectPool.releaseAll (p : ObjectPool) : ObjectPool :=
  { p with pool := p.pool ++ p.active, active := [] }

/-- The backwards splice loop of `ObjectPool.update` (lines 61-71) on the
`active` list: returns the remaining active instances and the released
ones in push order.  The loop walks indices from high to low, so the
releases of the tail (higher indices) precede the head's. -/
def reapInactive (act : Nat → Bool) : List Nat → List Nat × List Nat
  | [] => ([], [])
  | x :: xs =>
      let r := reapInactive act xs
      if act x then (x :: r.1, r.2) else (r.1, r.2 ++ [x])

/-- `ObjectPool.update` (lines 61-71): remove the instances whose
`isActive()` is false from `active` and return them to `pool`. -/
def ObjectPool.update (act : Nat → Bool) (p : ObjectPool) : ObjectPool :=
  { p with
      active := (reapInactive act p.active).1
      pool := p.pool ++ (reapInactive act p.active).2 }

/-- Iterated `get`, discarding the returned handles: the pool state after
`n` successive `get()` calls. -/
def ObjectPool.getIter (p : ObjectPool) : Nat → ObjectPool
  | 0 => p
  | n + 1 => (p.getIter n).get.2

lemma getIter_empty_pool (N k : Nat) (hk : k ≤ N) :
    ((mkObjectPool 0 N).getIter k).pool = [] ∧
    ((mkObjectPool 0 N).getIter k).active.length = k ∧
    ((mkObjectPool 0 N).getIter k).maxSize = N := by
  induction k with
  | zero => simp [ObjectPool.getIter, mkObjectPool]
  | succ k ih =>
      obtain ⟨hp, ha, hm⟩ := ih (Nat.le_of_succ_le hk)
      simp only [ObjectPool.getIter, ObjectPool.get, hp, List.getLast?_nil,
        ha, hm, List.length_nil, Nat.add_zero]
      have hlt : k < N := hk
      simp [hlt, hp, ha]

/-- **C5** — a pool constructed with capacity `N` and no pre-populated
free instances yields a non-null instance on each of the first `N` `get()`
calls and `null` on the `(N+1)`th; in general `get()` returns `null`
exactly when the free list is empty and
`active_count + free_count ≥ maxSize`. -/
theorem objectPool_get_capacity :
    (∀ N k : Nat, k < N →
      (((mkObjectPool 0 N).getIter k).get.1.isSome = true)) ∧
    (∀ N : Nat, ((mkObjectPool 0 N).getIter N).get.1 = none) ∧
    (∀ p : ObjectPool,
      p.get.1 = none ↔ p.pool = [] ∧ p.maxSize ≤ p.active.length + p.pool.length) := by
  refine ⟨?_, ?_, ?_⟩
  · intro N k hk
    obtain ⟨hp, ha, hm⟩ := getIter_empty_pool N k (Nat.le_of_lt hk)
    simp [ObjectPool.get, hp, ha, hm, hk]
  · intro N
    obtain ⟨hp, ha, hm⟩ := getIter_empty_pool N N (Nat.le_refl N)
    simp [ObjectPool.get, hp, ha, hm]
  · intro p
    rcases hq : p.pool.getLast? with _ | o
    · have hnil : p.pool = [] := List.getLast?_eq_none_iff.mp hq
      simp only [ObjectPool.get, hq, hnil, List.length_nil, Nat.add_zero]
      by_cases hlt : p.active.length < p.maxSize
      all_goals simp [hlt, hnil]
      all_goals omega
    · have hne : p.pool ≠ [] := fun hnil => by rw [hnil] at hq; simp at hq
      simp [ObjectPool.get, hq, hne]

/-- Witness for C5: with capacity 3 and zero initial free slots, the third
`get()` (index 2) succeeds and the fourth returns `null`. -/
theorem objectPool_get_capacity_witness :
    ((mkObjectPool 0 3).getIter 2).get.1.isSome = true ∧
    ((mkObjectPool 0 3).getIter 3).get.1 = none ∧
    ((mkObjectPool 0 3).get.1 = none ↔
      (mkObjectPool 0 3).pool = [] ∧
        3 ≤ (mkObjectPool 0 3).active.length + (mkObjectPool 0 3).pool.length) :=
  ⟨objectPool_get_capacity.1 3 2 (by decide),
   objectPool_get_capacity.2.1 3,
   objectPool_get_capacity.2.2 (mkObjectPool 0 3)⟩

/-- **C8** — releasing an object that is not tracked in `active` is a
no-op: the pool state is returned unchanged, so releasing the same handle
twice does not corrupt state. -/
theorem objectPool_release_untracked_noop (p : ObjectPool) (obj : Nat)
    (h : obj ∉ p.active) : p.release obj = p := by
  simp [ObjectPool.release, h]

/-- Witness for C8: releasing id 7, which is not active in a freshly
constructed pool, changes nothing. -/
theorem objectPool_release_untracked_noop_witness :
    (mkObjectPool 2 5).release 7 = mkObjectPool 2 5 :=
  objectPool_release_untracked_noop (mkObjectPool 2 5) 7 (by decide)

lemma reapInactive_perm (act : Nat → Bool) (l : List Nat) :
    List.Perm ((reapInactive act l).1 ++ (reapInactive act l).2) l := by
  induction l with
  | nil => simp [reapInactive]
  | cons x xs ih =>
      by_cases hx : act x
      · have hr : reapInactive act (x :: xs) =
            (x :: (reapInactive act xs).1, (reapInactive act xs).2) := by
          simp [reapInactive, hx]
        rw [hr]
        simpa using ih.cons x
      · have hr : reapInactive act (x :: xs) =
            ((reapInactive act xs).1, (reapInactive act xs).2 ++ [x]) := by
          simp [reapInactive, hx]
        rw [hr]
        have h1 : ((reapInactive act xs).1 ++ ((reapInactive act xs).2 ++ [x]) :
              List Nat) =
            ((reapInactive act xs).1 ++ (reapInactive act xs).2) ++ [x] := by
          simp [List.append_assoc]
        dsimp only
        rw [h1]
        exact (List.perm_append_singleton x _).trans (ih.cons x)

/-- The capacity invariant: the pool never tracks more instances than
`maxSize`. -/
def PoolInv (p : ObjectPool) : Prop :=
  p.pool.length + p.active.length ≤ p.maxSize

instance (p : ObjectPool) : Decidable (PoolInv p) := by
  unfold PoolInv; infer_instance

/-- **C9** — for every pool constructed with `initialSize ≤ maxSize` the
invariant `free_count + active_count ≤ maxSize` holds initially and is
preserved by `get`, `release`, `releaseAll` and `update`; moreover
`release`, `releaseAll` and `update` only move instances between the two
lists: the combined contents are a permutation of what they were. -/
theorem objectPool_capacity_invariant :
    (∀ initialSize maxSize : Nat, initialSize ≤ maxSize →
      PoolInv (mkObjectPool initialSize maxSize)) ∧
    (∀ p : ObjectPool, PoolInv p → PoolInv p.get.2) ∧
    (∀ (p : ObjectPool) (obj : Nat), PoolInv p → PoolInv (p.release obj)) ∧
    (∀ p : ObjectPool, PoolInv p → PoolInv p.releaseAll) ∧
    (∀ (p : ObjectPool) (act : Nat → Bool), PoolInv p → PoolInv (p.update act)) ∧
    (∀ (p : ObjectPool) (obj : Nat),
      List.Perm ((p.release obj).pool ++ (p.release obj).active) (p.pool ++ p.active)) ∧
    (∀ p : ObjectPool,
      List.Perm (p.releaseAll.pool ++ p.releaseAll.active) (p.pool ++ p.active)) ∧
    (∀ (p : ObjectPool) (act : Nat → Bool),
      List.Perm ((p.update act).pool ++ (p.update act).active) (p.pool ++ p.active)) := by
  refine ⟨?_, ?_, ?_, ?_, ?_, ?_, ?_, ?_⟩
  · intro i m him
    simpa [PoolInv, mkObjectPool] using him
  · intro p hp
    unfold PoolInv at hp ⊢
    rcases hq : p.pool.getLast? with _ | o
    · have hnil : p.pool = [] := List.getLast?_eq_none_iff.mp hq
      simp only [ObjectPool.get, hq, hnil, List.length_nil, Nat.add_zero] at hp ⊢
      by_cases hlt : p.active.length < p.maxSize
      all_goals simp [hlt, hnil]
      all_goals omega
    · obtain ⟨ys, hpool⟩ := List.getLast?_eq_some_iff.mp hq
      simp only [ObjectPool.get, hq]
      simp only [hpool, List.dropLast_concat, List.length_append, List.length_cons,
        List.length_nil] at hp ⊢
      omega
  · intro p obj hp
    unfold PoolInv at hp ⊢
    unfold ObjectPool.release
    by_cases h : obj ∈ p.active
    · have hlen := List.length_erase_of_mem h
      have hmem : 1 ≤ p.active.length := List.length_pos.mpr (List.ne_nil_of_mem h)
      simp only [h, if_true, List.length_append, List.length_cons, List.length_nil,
        hlen]
      omega
    · simpa [h] using hp
  · intro p hp
    unfold PoolInv at hp ⊢
    simp only [ObjectPool.releaseAll, List.length_append, List.length_nil]
    omega
  · intro p act hp
    unfold PoolInv at hp ⊢
    have hperm := reapInactive_perm act p.active
    have hlen := hperm.length_eq
    simp only [List.length_append] at hlen
    simp only [ObjectPool.update, List.length_append]
    omega
  · intro p obj
    unfold ObjectPool.release
    by_cases h : obj ∈ p.active
    · simp only [h, if_true]
      have h1 : (p.pool ++ [obj]) ++ p.active.erase obj =
          p.pool ++ (obj :: p.active.erase obj) := by
        simp [List.append_assoc]
      rw [h1]
      exact ((List.perm_cons_erase h).symm).append_left p.pool
    · simp [h]
  · intro p
    simp [ObjectPool.releaseAll]
  · intro p act
    have hperm := reapInactive_perm act p.active
    have h1 : (p.update act).pool ++ (p.update act).active =
        p.pool ++ ((reapInactive act p.active).2 ++ (reapInactive act p.active).1) := by
      simp [ObjectPool.update, List.append_assoc]
    rw [h1]
    exact ((List.perm_append_comm).trans hperm).append_left p.pool

/-- Witness for C9: a pool of capacity 5 with 2 pre-populated instances
satisfies the invariant, and `get`, `release` of an active handle,
`releaseAll` and `update` preserve it at this instance. -/
theorem objectPool_capacity_invariant_witness :
    PoolInv (mkObjectPool 2 5) ∧
    PoolInv (mkObjectPool 2 5).get.2 ∧
    PoolInv ((mkObjectPool 2 5).release 1) ∧
    PoolInv (mkObjectPool 2 5).releaseAll ∧
    PoolInv ((mkObjectPool 2 5).update fun _ => false) :=
  ⟨objectPool_capacity_invariant.1 2 5 (by decide),
   objectPool_capacity_invariant.2.1 _ (by decide),
   objectPool_capacity_invariant.2.2.1 _ 1 (by decide),
   objectPool_capacity_invariant.2.2.2.1 _ (by decide),
   objectPool_capacity_invariant.2.2.2.2.1 _ _ (by decide)⟩

/-! ## Game state machine (`src/utils/gameStateManager.ts`)

`emitEvent` invokes the registered handlers synchronously; in this
embedding an emission is recorded by appending the event to the `events`
trace of the manager, so "an event is emitted" is "the event appears in
the trace".  `notifyListeners` carries no event payload and is not
modelled. -/

/-- `GamePhase` from `src/types/game.ts`. -/
inductive GamePhase where
  | start
  | playing
  | paused
  | gameOver
  | levelComplete
  deriving DecidableEq, Repr

/-- The string TypeScript uses for a phase (`updateState` casts the new
phase to an event type). -/
def GamePhase.toEventType : GamePhase → String
  | .start => "start"
  | .playing => "playing"
  | .paused => "paused"
  | .gameOver => "gameOver"
  | .levelComplete => "levelComplete"

/-- The `data` payloads attached to `GameEvent`s by
`src/utils/gameStateManager.ts`. -/
inductive EventData where
  | phaseChange (previousPhase currentPhase : GamePhase)
  | finalScore (score : Int)
  | livesRemaining (lives : Int)
  | level (level : Int)
  deriving DecidableEq, Repr

/-- `GameEvent` from `src/types/game.ts`: an event type string plus
payload. -/
structure GameEvent where
  type : String
  data : EventData
  deriving DecidableEq, Repr

/-- `GameState` from `src/types/game.ts`. -/
structure GameState where
  phase : GamePhase
  score : Int
  lives : Int
  level : Int
  enemies : List Enemy
  bullets : List Bullet
  particles : List Particle
  player : Player
  lastUpdateTime : Int
  fps : Int
  deriving DecidableEq, Repr

/-- The `GameStateManager`'s mutable fields: the current state and the
trace of events emitted through `emitEvent` so far. -/
structure GameStateManager where
  state : GameState
  events : List GameEvent
  deriving DecidableEq, Repr

/-- `createPlayer` (`src/utils/gameStateManager.ts`, lines 29-39). -/
def createPlayer : Player :=
  { x := playerStartX - playerWidth / 2
    y := playerStartY
    width := playerWidth
    height := playerHeight
    speed := playerSpeed
    active := true
    lives := initialLives }

/-- `createInitialState` (`src/utils/gameStateManager.ts`, lines 14-27). -/
def createInitialState : GameState :=
  { phase := .start
    score := 0
    lives := initialLives
    level := 1
    enemies := []
    bullets := []
    particles := []
    player := createPlayer
    lastUpdateTime := 0
    fps := 0 }

/-- `emitEvent` (lines 154-165): the handlers run synchronously; the
trace records the emission. -/
def emitEvent (m : GameStateManager) (e : GameEvent) : GameStateManager :=
  { m with events := m.events ++ [e] }

/-- `updateState` (lines 45-58): replace the state with the merged state
`s'` and, when the phase changed, emit an event whose type is the new
phase and whose data carries the (previous, current) phase pair. -/
def updateState (m : GameStateManager) (s' : GameState) : GameStateManager :=
  let previousPhase := m.state.phase
  let m' : GameStateManager := { m with state := s' }
  if previousPhase ≠ s'.phase then
    emitEvent m' { type := s'.phase.toEventType
                   data := .phaseChange previousPhase s'.phase }
  else
    m'

/-- `startGame` (lines 60-67): assigns the fresh state directly (only
`notifyListeners` is called; `updateState` and `emitEvent` are not). -/
def startGame (m : GameStateManager) : GameStateManager :=
  { m with state := { createInitialState with
                        phase := .playing
                        enemies := createEnemyGrid } }

/-- `pauseGame` (lines 69-73). -/
def pauseGame (m : GameStateManager) : GameStateManager :=
  if m.state.phase = .playing then
    updateState m { m.state with phase := .paused }
  else
    m

/-- `resumeGame` (lines 75-79). -/
def resumeGame (m : GameStateManager) : GameStateManager :=
  if m.state.phase = .paused then
    updateState m { m.state with phase := .playing }
  else
    m

/-- `gameOver` (lines 81-84). -/
def gameOver (m : GameStateManager) : GameStateManager :=
  let m1 := updateState m { m.state with phase := .gameOver }
  emitEvent m1 { type := "gameOver", data := .finalScore m1.state.score }

/-- `nextLevel` (lines 86-100). -/
def nextLevel (m : GameStateManager) : GameStateManager :=
  let newLevel := m.state.level + 1
  let m1 := updateState m
    { m.state with
        level := newLevel
        enemies := createEnemyGrid
        bullets := []
        particles := []
        player := { m.state.player with
                      x := playerStartX - playerWidth / 2
                      y := playerStartY } }
  emitEvent m1 { type := "levelComplete", data := .level newLevel }

/-- `loseLife` (lines 102-123). -/
def loseLife (m : GameStateManager) : GameStateManager :=
  let newLives := max 0 (m.state.lives - 1)
  let m1 := updateState m { m.state with lives := newLives }
  let m2 :=
    if newLives ≤ 0 then
      gameOver m1
    else
      updateState m1
        { m1.state with
            player := { m1.state.player with
                          x := playerStartX - playerWidth / 2
                          y := playerStartY }
            enemies := createEnemyGrid
            bullets := []
            particles := [] }
  emitEvent m2 { type := "playerHit", data := .livesRemaining newLives }

/-- `addScore` (lines 125-127). -/
def addScore (m : GameStateManager) (points : Int) : GameStateManager :=
  updateState m { m.state with score := m.state.score + points }

/-- `updateFPS` (lines 129-131). -/
def updateFPS (m : GameStateManager) (fps : Int) : GameStateManager :=
  updateState m { m.state with fps := fps }

/-- `updateLastUpdateTime` (lines 133-135). -/
def updateLastUpdateTime (m : GameStateManager) (time : Int) : GameStateManager :=
  updateState m { m.state with lastUpdateTime := time }

/-- `reset` (lines 189-192): restores the initial state (no event). -/
def reset (m : GameStateManager) : GameStateManager :=
  { m with state := createInitialState }

/-- The manager as freshly constructed (lines 10-12). -/
def initialManager : GameStateManager :=
  { state := createInitialState, events := [] }

/-- **C3 counterexample** — `startGame` changes the phase (from `start`
to `playing` on a fresh manager) yet emits no event at all: it assigns
the state directly instead of going through `updateState`, so no
(previous, current) phase-change event reaches the handlers. -/
theorem startGame_no_phase_event :
    (startGame initialManager).state.phase = GamePhase.playing ∧
    initialManager.state.phase = GamePhase.start ∧
    (startGame initialManager).events = [] := by
  refine ⟨rfl, rfl, rfl⟩

/-- **C3 (amended)** — every phase change performed through
`updateState` — by `pauseGame`, `resumeGame`, `gameOver` and `loseLife` —
emits an event carrying the (previous, current) phase pair at the moment
of the change, but `startGame` changes the phase without emitting any
event. -/
theorem phase_change_events (m : GameStateManager) :
    ((startGame m).state.phase = GamePhase.playing ∧
      (startGame m).events = m.events) ∧
    (m.state.phase = GamePhase.playing →
      (pauseGame m).events = m.events ++
        [{ type := "paused",
           data := .phaseChange GamePhase.playing GamePhase.paused }]) ∧
    (m.state.phase = GamePhase.paused →
      (resumeGame m).events = m.events ++
        [{ type := "playing",
           data := .phaseChange GamePhase.paused GamePhase.playing }]) ∧
    (m.state.phase ≠ GamePhase.gameOver →
      (gameOver m).events = m.events ++
        [{ type := "gameOver",
           data := .phaseChange m.state.phase GamePhase.gameOver },
         { type := "gameOver", data := .finalScore m.state.score }]) ∧
    (m.state.phase = GamePhase.playing → m.state.lives ≤ 1 →
      (loseLife m).events = m.events ++
        [{ type := "gameOver",
           data := .phaseChange GamePhase.playing GamePhase.gameOver },
         { type := "gameOver", data := .finalScore m.state.score },
         { type := "playerHit", data := .livesRemaining 0 }]) := by
  refine ⟨⟨rfl, rfl⟩, fun hp => ?_, fun hp => ?_, fun hp => ?_, fun hp hl => ?_⟩
  · simp [pauseGame, updateState, emitEvent, hp, GamePhase.toEventType]
  · simp [resumeGame, updateState, emitEvent, hp, GamePhase.toEventType]
  · simp [gameOver, updateState, emitEvent, hp, GamePhase.toEventType]
  · have hnew : max 0 (m.state.lives - 1) = 0 := by omega
    simp [loseLife, hnew, gameOver, updateState, emitEvent, hp,
      GamePhase.toEventType]

/-- Witness for the amended C3: on a fresh manager in phase `playing`,
`pauseGame` emits exactly the (playing, paused) event. -/
theorem phase_change_events_witness :
    (pauseGame (startGame initialManager)).events =
      (startGame initialManager).events ++
        [{ type := "paused",
           data := .phaseChange GamePhase.playing GamePhase.paused }] :=
  (phase_change_events (startGame initialManager)).2.1 rfl

/-- **C4** — from a `playing` state, `loseLife` decrements `lives` by one
(saturating at 0); when the new lives count is 0 the phase transitions to
`gameOver` with exactly one phase-change event emitted, and no subsequent
`pauseGame`/`resumeGame`/`loseLife`/`nextLevel` call leaves `gameOver`;
otherwise the player is repositioned to the start position, a fresh full
enemy grid replaces the enemies, bullets and particles are cleared, and
score and level are unchanged. -/
theorem loseLife_spec (m : GameStateManager)
    (hp : m.state.phase = GamePhase.playing) :
    (1 ≤ m.state.lives → (loseLife m).state.lives = m.state.lives - 1) ∧
    (m.state.lives ≤ 1 →
      (loseLife m).state.phase = GamePhase.gameOver ∧
      (loseLife m).events = m.events ++
        [{ type := "gameOver",
           data := .phaseChange GamePhase.playing GamePhase.gameOver },
         { type := "gameOver", data := .finalScore m.state.score },
         { type := "playerHit", data := .livesRemaining 0 }]) ∧
    (2 ≤ m.state.lives →
      (loseLife m).state.phase = GamePhase.playing ∧
      (loseLife m).state.lives = m.state.lives - 1 ∧
      (loseLife m).state.player =
        { m.state.player with x := playerStartX - playerWidth / 2,
                              y := playerStartY } ∧
      (loseLife m).state.enemies = createEnemyGrid ∧
      (loseLife m).state.bullets = [] ∧
      (loseLife m).state.particles = [] ∧
      (loseLife m).state.score = m.state.score ∧
      (loseLife m).state.level = m.state.level) ∧
    (∀ m' : GameStateManager, m'.state.phase = GamePhase.gameOver →
      (pauseGame m').state.phase = GamePhase.gameOver ∧
      (resumeGame m').state.phase = GamePhase.gameOver ∧
      (loseLife m').state.phase = GamePhase.gameOver ∧
      (nextLevel m').state.phase = GamePhase.gameOver ∧
      (addScore m' 0).state.phase = GamePhase.gameOver) := by
  refine ⟨fun h1 => ?_, fun h1 => ?_, fun h2 => ?_, fun m' hgo => ?_⟩
  · by_cases h2 : m.state.lives ≤ 1
    · have hnew : max 0 (m.state.lives - 1) = 0 := by omega
      have hl1 : m.state.lives = 1 := by omega
      simp [loseLife, hnew, gameOver, updateState, emitEvent, hp, hl1]
    · have hnew : max 0 (m.state.lives - 1) = m.state.lives - 1 := by omega
      have hpos : ¬ (m.state.lives - 1 ≤ 0) := by omega
      simp [loseLife, hnew, gameOver, updateState, emitEvent, hp, hpos]
  · have hnew : max 0 (m.state.lives - 1) = 0 := by omega
    constructor
    · simp [loseLife, hnew, gameOver, updateState, emitEvent, hp]
    · simp [loseLife, hnew, gameOver, updateState, emitEvent, hp,
        GamePhase.toEventType]
  · have hnew : max 0 (m.state.lives - 1) = m.state.lives - 1 := by omega
    have hpos : ¬ (m.state.lives - 1 ≤ 0) := by omega
    refine ⟨?_, ?_, ?_, ?_, ?_, ?_, ?_, ?_⟩ <;>
      simp [loseLife, hnew, gameOver, updateState, emitEvent, hp, hpos]
  · have hnp : m'.state.phase ≠ GamePhase.playing := by rw [hgo]; decide
    have hns : m'.state.phase ≠ GamePhase.paused := by rw [hgo]; decide
    refine ⟨?_, ?_, ?_, ?_, ?_⟩
    · simp [pauseGame, hnp, hgo]
    · simp [resumeGame, hns, hgo]
    · by_cases hl : max 0 (m'.state.lives - 1) ≤ 0
      · simp [loseLife, hl, gameOver, updateState, emitEvent, hgo]
      · simp [loseLife, hl, updateState, emitEvent, hgo]
    · simp [nextLevel, updateState, emitEvent, hgo]
    · simp [addScore, updateState, emitEvent, hgo]

/-- Witness for C4: a fresh game (phase `playing`, 3 lives) keeps playing
after one `loseLife`, with the player respawned and the grid regenerated. -/
theorem loseLife_spec_witness :
    (loseLife (startGame initialManager)).state.phase = GamePhase.playing ∧
    (loseLife (startGame initialManager)).state.lives =
      (startGame initialManager).state.lives - 1 ∧
    (loseLife (startGame initialManager)).state.player =
      { (startGame initialManager).state.player with
          x := playerStartX - playerWidth / 2, y := playerStartY } ∧
    (loseLife (startGame initialManager)).state.enemies = createEnemyGrid ∧
    (loseLife (startGame initialManager)).state.bullets = [] ∧
    (loseLife (startGame initialManager)).state.particles = [] ∧
    (loseLife (startGame initialManager)).state.score =
      (startGame initialManager).state.score ∧
    (loseLife (startGame initialManager)).state.level =
      (startGame initialManager).state.level :=
  (loseLife_spec (startGame initialManager) rfl).2.2.1 (by decide)

/-- **C6 counterexample** — `addScore` applies no lower bound: on a fresh
manager (score 0), `addScore(-1)` drives the score to `-1`, which is both
negative and a strict decrease, so the score is not monotonically
non-decreasing under arbitrary `addScore` arguments. -/
theorem addScore_negative_counterexample :
    (addScore initialManager (-1)).state.score = -1 ∧
    (addScore initialManager (-1)).state.score < initialManager.state.score ∧
    (addScore initialManager (-1)).state.score < 0 := by
  refine ⟨rfl, by decide, by decide⟩

/-- The operations of the `GameStateManager` other than `startGame` and
`reset`, as a syntax for sequences of calls. -/
inductive ManagerOp where
  | pauseOp
  | resumeOp
  | gameOverOp
  | nextLevelOp
  | loseLifeOp
  | addScoreOp (points : Int)
  | updateFPSOp (fps : Int)
  | updateTimeOp (time : Int)
  deriving DecidableEq, Repr

/-- Interpretation of a `ManagerOp` as the corresponding method call. -/
def applyOp (m : GameStateManager) : ManagerOp → GameStateManager
  | .pauseOp => pauseGame m
  | .resumeOp => resumeGame m
  | .gameOverOp => gameOver m
  | .nextLevelOp => nextLevel m
  | .loseLifeOp => loseLife m
  | .addScoreOp points => addScore m points
  | .updateFPSOp fps => updateFPS m fps
  | .updateTimeOp time => updateLastUpdateTime m time

/-- An operation whose `addScore` argument (if any) is non-negative. -/
def NonNegOp : ManagerOp → Prop
  | .addScoreOp points => 0 ≤ points
  | _ => True

instance (op : ManagerOp) : Decidable (NonNegOp op) := by
  cases op <;> (unfold NonNegOp; infer_instance)

lemma applyOp_score_mono (m : GameStateManager) (op : ManagerOp)
    (h : NonNegOp op) : m.state.score ≤ (applyOp m op).state.score := by
  cases op with
  | pauseOp =>
      by_cases hp : m.state.phase = GamePhase.playing <;>
        simp [applyOp, pauseGame, updateState, emitEvent, hp]
  | resumeOp =>
      by_cases hp : m.state.phase = GamePhase.paused <;>
        simp [applyOp, resumeGame, updateState, emitEvent, hp]
  | gameOverOp =>
      by_cases hp : m.state.phase = GamePhase.gameOver <;>
        simp [applyOp, gameOver, updateState, emitEvent, hp]
  | nextLevelOp =>
      simp [applyOp, nextLevel, updateState, emitEvent]
  | loseLifeOp =>
      by_cases hl : max 0 (m.state.lives - 1) ≤ 0 <;>
        by_cases hp : m.state.phase = GamePhase.gameOver <;>
        simp [applyOp, loseLife, gameOver, updateState, emitEvent, hl, hp]
  | addScoreOp points =>
      have hpt : (0 : Int) ≤ points := h
      simp [applyOp, addScore, updateState, emitEvent]
      omega
  | updateFPSOp fps =>
      simp [applyOp, updateFPS, updateState, emitEvent]
  | updateTimeOp time =>
      simp [applyOp, updateLastUpdateTime, updateState, emitEvent]

/-- **C6 (amended)** — `addScore(points)` adds `points` to the score with
no lower bound; across every sequence of `GameStateManager` operations
excluding `startGame` and `reset` in which every `addScore` argument is
non-negative, the score is monotonically non-decreasing (a negative
argument, which nothing prevents, strictly decreases it). -/
theorem score_monotone_nonneg :
    (∀ (m : GameStateManager) (points : Int),
      (addScore m points).state.score = m.state.score + points) ∧
    (∀ (m : GameStateManager) (ops : List ManagerOp),
      (∀ op ∈ ops, NonNegOp op) →
      m.state.score ≤ (ops.foldl applyOp m).state.score) := by
  constructor
  · intro m points
    by_cases hp : m.state.phase = (updateState m
        { m.state with score := m.state.score + points }).state.phase <;>
      simp [addScore, updateState, emitEvent]
  · intro m ops
    induction ops generalizing m with
    | nil => intro _; simp
    | cons op rest ih =>
        intro hall
        have h1 := applyOp_score_mono m op (hall op (List.mem_cons_self op rest))
        have h2 := ih (applyOp m op) fun o ho => hall o (List.mem_cons_of_mem op ho)
        simpa using le_trans h1 h2

/-- Witness for the amended C6: starting from a fresh game, the sequence
`addScore 10; pauseGame; addScore 0` never decreases the score. -/
theorem score_monotone_nonneg_witness :
    (addScore (startGame initialManager) 10).state.score =
      (startGame initialManager).state.score + 10 ∧
    (startGame initialManager).state.score ≤
      (([ManagerOp.addScoreOp 10, ManagerOp.pauseOp,
          ManagerOp.addScoreOp 0].foldl applyOp
        (startGame initialManager))).state.score :=
  ⟨score_monotone_nonneg.1 (startGame initialManager) 10,
   score_monotone_nonneg.2 (startGame initialManager) _ (by decide)⟩

/-! ## Bullet-enemy collision scan (`src/utils/gameLogic.ts`, lines 109-133) -/

/-- The result record of `checkBulletEnemyCollisions`. -/
structure CollisionScan where
  hitBullets : List Nat
  hitEnemies : List Nat
  score : Int
  deriving DecidableEq, Repr

/-- The inner `enemies.forEach` of `checkBulletEnemyCollisions`: walk the
enemies with their indices, appending to the accumulator on each hit of
the given active bullet. -/
def scanEnemies (bulletIndex : Nat) (bullet : Bullet) :
    Nat → List Enemy → CollisionScan → CollisionScan
  | _, [], acc => acc
  | enemyIndex, enemy :: rest, acc =>
      scanEnemies bulletIndex bullet (enemyIndex + 1) rest
        (if enemy.active && checkCollision bullet.box enemy.box then
          { hitBullets := acc.hitBullets ++ [bulletIndex]
            hitEnemies := acc.hitEnemies ++ [enemyIndex]
            score := acc.score + pointsPerEnemy }
        else acc)

/-- The outer `bullets.forEach` of `checkBulletEnemyCollisions`: inactive
bullets are skipped (`return`); active ones run the inner scan. -/
def scanBullets (enemies : List Enemy) :
    Nat → List Bullet → CollisionScan → CollisionScan
  | _, [], acc => acc
  | bulletIndex, bullet :: rest, acc =>
      scanBullets enemies (bulletIndex + 1) rest
        (if bullet.active then scanEnemies bulletIndex bullet 0 enemies acc
         else acc)

/-- `checkBulletEnemyCollisions` from `src/utils/gameLogic.ts`
(lines 109-133). -/
def checkBulletEnemyCollisions (bullets : List Bullet) (enemies : List Enemy) :
    CollisionScan :=
  scanBullets enemies 0 bullets { hitBullets := [], hitEnemies := [], score := 0 }

/-- Enemy indices (from offset `j`) of the active enemies colliding with
bullet `b`: the proof-side counting device for the inner loop. -/
def hitIndicesFrom (b : Bullet) (j : Nat) (es : List Enemy) : List Nat :=
  ((es.enumFrom j).filter fun ej =>
    ej.2.active && checkCollision b.box ej.2.box).map Prod.fst

/-- The list of colliding (active bullet index, active enemy index) pairs,
in loop order, stated from the claim: pair `(i, j)` is listed once for
each active bullet `i` and active enemy `j` whose rectangles overlap. -/
def collidingPairs (bullets : List Bullet) (enemies : List Enemy) :
    List (Nat × Nat) :=
  bullets.enum.flatMap fun bi =>
    if bi.2.active then
      ((enemies.enum.filter fun ej =>
        ej.2.active && checkCollision bi.2.box ej.2.box).map fun ej =>
          (bi.1, ej.1))
    else []

lemma hitIndicesFrom_cons (b : Bullet) (j : Nat) (e : Enemy) (es : List Enemy) :
    hitIndicesFrom b j (e :: es) =
      (if e.active && checkCollision b.box e.box then [j] else []) ++
        hitIndicesFrom b (j + 1) es := by
  by_cases h : e.active && checkCollision b.box e.box <;>
    simp [hitIndicesFrom, List.enumFrom_cons, h]

lemma scanEnemies_spec (bulletIndex : Nat) (b : Bullet) (j : Nat)
    (es : List Enemy) (acc : CollisionScan) :
    scanEnemies bulletIndex b j es acc =
      { hitBullets := acc.hitBullets ++
          (hitIndicesFrom b j es).map fun _ => bulletIndex
        hitEnemies := acc.hitEnemies ++ hitIndicesFrom b j es
        score := acc.score + pointsPerEnemy * (hitIndicesFrom b j es).length } := by
  induction es generalizing j acc with
  | nil => simp [scanEnemies, hitIndicesFrom]
  | cons e rest ih =>
      rw [scanEnemies, ih, hitIndicesFrom_cons]
      by_cases h : e.active && checkCollision b.box e.box
      · simp [h, List.append_assoc]
        ring
      · simp [h]

/-- The pair list accumulated by the outer loop starting at bullet index
`i`. -/
def pairsFrom (i : Nat) (bs : List Bullet) (es : List Enemy) :
    List (Nat × Nat) :=
  (bs.enumFrom i).flatMap fun bi =>
    if bi.2.active then (hitIndicesFrom bi.2 0 es).map fun j => (bi.1, j)
    else []

lemma pairsFrom_cons (i : Nat) (b : Bullet) (bs : List Bullet)
    (es : List Enemy) :
    pairsFrom i (b :: bs) es =
      (if b.active then (hitIndicesFrom b 0 es).map fun j => (i, j) else []) ++
        pairsFrom (i + 1) bs es := by
  by_cases h : b.active <;> simp [pairsFrom, List.enumFrom_cons, h]

lemma scanBullets_spec (es : List Enemy) (i : Nat) (bs : List Bullet)
    (acc : CollisionScan) :
    scanBullets es i bs acc =
      { hitBullets := acc.hitBullets ++ (pairsFrom i bs es).map Prod.fst
        hitEnemies := acc.hitEnemies ++ (pairsFrom i bs es).map Prod.snd
        score := acc.score + pointsPerEnemy * (pairsFrom i bs es).length } := by
  induction bs generalizing i acc with
  | nil => simp [scanBullets, pairsFrom]
  | cons b rest ih =>
      rw [scanBullets, ih, pairsFrom_cons]
      by_cases h : b.active
      · rw [if_pos h, if_pos h, scanEnemies_spec]
        simp [List.map_map, Function.comp, List.append_assoc]
        ring
      · simp [h]

lemma collidingPairs_eq_pairsFrom (bs : List Bullet) (es : List Enemy) :
    collidingPairs bs es = pairsFrom 0 bs es := by
  unfold collidingPairs pairsFrom hitIndicesFrom
  rw [List.enum_eq_enumFrom]
  congr 1
  funext bi
  by_cases h : bi.2.active <;> simp [h, List.enum_eq_enumFrom, List.map_map]

/-- **C10** — `checkBulletEnemyCollisions` returns exactly one
`hitBullets`/`hitEnemies` entry per colliding (active bullet, active
enemy) pair and a score of `pointsPerEnemy` per pair: the result equals
the pair list in loop order, so a single bullet overlapping `k` active
enemies contributes its index `k` times (the `hitBullets` of a one-bullet
list is a constant list of index 0 of length `hitEnemies.length`), and
inactive bullets and enemies contribute nothing. -/
theorem checkBulletEnemyCollisions_pairs (bullets : List Bullet)
    (enemies : List Enemy) :
    (checkBulletEnemyCollisions bullets enemies =
      { hitBullets := (collidingPairs bullets enemies).map Prod.fst
        hitEnemies := (collidingPairs bullets enemies).map Prod.snd
        score := pointsPerEnemy * (collidingPairs bullets enemies).length }) ∧
    (checkBulletEnemyCollisions bullets enemies).score =
      pointsPerEnemy * (collidingPairs bullets enemies).length ∧
    (checkBulletEnemyCollisions bullets enemies).hitBullets.length =
      (collidingPairs bullets enemies).length ∧
    (checkBulletEnemyCollisions bullets enemies).hitEnemies.length =
      (collidingPairs bullets enemies).length ∧
    ∀ b : Bullet,
      (checkBulletEnemyCollisions [b] enemies).hitBullets =
        List.replicate (checkBulletEnemyCollisions [b] enemies).hitEnemies.length 0 := by
  have hmain : ∀ bs : List Bullet,
      checkBulletEnemyCollisions bs enemies =
        { hitBullets := (collidingPairs bs enemies).map Prod.fst
          hitEnemies := (collidingPairs bs enemies).map Prod.snd
          score := pointsPerEnemy * (collidingPairs bs enemies).length } := by
    intro bs
    rw [checkBulletEnemyCollisions, scanBullets_spec, collidingPairs_eq_pairsFrom]
    simp
  refine ⟨hmain bullets, ?_, ?_, ?_, ?_⟩
  · rw [hmain bullets]
  · rw [hmain bullets]; simp
  · rw [hmain bullets]; simp
  · intro b
    rw [hmain [b]]
    simp only [collidingPairs_eq_pairsFrom, pairsFrom, List.enumFrom_cons,
      List.enumFrom_nil, List.flatMap_cons, List.flatMap_nil, List.append_nil]
    by_cases h : b.active
    · simp [h, List.map_map, Function.comp]
      exact List.map_const' _ 0
    · simp [h]

/-! ## Fixed-timestep scheduler (`src/hooks/useGameLoop.ts`)

One invocation of the `gameLoop` callback is modelled by the lag
accumulator it reads and writes; elapsed times are exact rationals
(`targetFrameTime` is the non-integer `16.67`).  The `while` loop
(lines 37-47) runs `onUpdate` while `lag ≥ targetFrameTime` and fewer
than `maxUpdates = 5` updates have run; the remaining allowance of
updates is the structural fuel.  After the loop the single `onRender`
receives `lag / targetFrameTime` (lines 50-56).  The `try`/`catch`
branches (an exception resets the lag) are not modelled: the claims are
about the exception-free path. -/

/-- `GAME_CONFIG.game.targetFrameTime = 16.67`. -/
def targetFrameTime : ℚ := 1667 / 100

/-- `maxUpdates = 5` (line 36): the catch-up cap. -/
def maxUpdates : Nat := 5

/-- The fixed-timestep `while` loop (lines 37-47): with `n` allowed
updates remaining, run an update and subtract one tick while
`lag ≥ targetFrameTime`; returns (number of updates run, final lag). -/
def runFixedUpdates : Nat → ℚ → Nat × ℚ
  | 0, lag => (0, lag)
  | n + 1, lag =>
      if targetFrameTime ≤ lag then
        ((runFixedUpdates n (lag - targetFrameTime)).1 + 1,
         (runFixedUpdates n (lag - targetFrameTime)).2)
      else
        (0, lag)

/-- What one exception-free `gameLoop` callback (lines 17-70) does to the
scheduler state: accumulate the elapsed time into the lag, run the capped
update loop, and compute the interpolation value passed to the single
`onRender` call. -/
structure GameLoopResult where
  updates : Nat
  lag : ℚ
  interpolation : ℚ
  deriving DecidableEq, Repr

/-- One `gameLoop` callback given the stored lag and the elapsed time
`deltaTime` since the previous callback. -/
def gameLoopStep (lag deltaTime : ℚ) : GameLoopResult :=
  let lag1 := lag + deltaTime
  { updates := (runFixedUpdates maxUpdates lag1).1
    lag := (runFixedUpdates maxUpdates lag1).2
    interpolation := (runFixedUpdates maxUpdates lag1).2 / targetFrameTime }

/-- **C2 counterexample** — on a callback whose accumulated lag is 10
fixed ticks, 5 updates fire but the remaining 5 ticks of lag are
retained in the accumulator (not dropped), and the interpolation value
passed to `Render` is `5`, which does not lie in `[0,1)`. -/
theorem gameLoop_burst_counterexample :
    (gameLoopStep 0 (10 * targetFrameTime)).updates = 5 ∧
    (gameLoopStep 0 (10 * targetFrameTime)).lag = 5 * targetFrameTime ∧
    (gameLoopStep 0 (10 * targetFrameTime)).interpolation = 5 ∧
    ¬ ((gameLoopStep 0 (10 * targetFrameTime)).interpolation < 1) := by
  have harg : (0 : ℚ) + 10 * targetFrameTime = 1667 / 10 := by
    norm_num [targetFrameTime]
  have h : runFixedUpdates maxUpdates (1667 / 10) = (5, 1667 / 20) := by
    norm_num [maxUpdates, runFixedUpdates, targetFrameTime]
  refine ⟨?_, ?_, ?_, ?_⟩ <;>
    simp [gameLoopStep, harg, h] <;> norm_num [targetFrameTime]

lemma runFixedUpdates_le (lag : ℚ) (n : Nat) :
    (runFixedUpdates n lag).1 ≤ n := by
  induction n generalizing lag with
  | zero => simp [runFixedUpdates]
  | succ n ih =>
      rw [runFixedUpdates]
      by_cases h : targetFrameTime ≤ lag
      · simpa [h] using ih (lag - targetFrameTime)
      · simp [h]

/-- **C2 (amended)** — for a single scheduler callback, at most
`maxUpdates = 5` `Update` calls fire before the single `Render` call;
when the accumulated lag equals 10 fixed ticks, exactly 5 updates fire,
the remaining 5 ticks of lag stay in the accumulator for the next
callback rather than being dropped, and the interpolation value passed to
`Render` (remaining accumulator divided by tick duration) equals 5,
outside `[0,1)`. -/
theorem gameLoop_update_cap :
    (∀ lag deltaTime : ℚ, (gameLoopStep lag deltaTime).updates ≤ 5) ∧
    (gameLoopStep 0 (10 * targetFrameTime)).updates = 5 ∧
    (gameLoopStep 0 (10 * targetFrameTime)).lag = 5 * targetFrameTime ∧
    (gameLoopStep 0 (10 * targetFrameTime)).interpolation = 5 := by
  have harg : (0 : ℚ) + 10 * targetFrameTime = 1667 / 10 := by
    norm_num [targetFrameTime]
  have h : runFixedUpdates maxUpdates (1667 / 10) = (5, 1667 / 20) := by
    norm_num [maxUpdates, runFixedUpdates, targetFrameTime]
  refine ⟨fun lag deltaTime => ?_, ?_, ?_, ?_⟩
  · exact runFixedUpdates_le (lag + deltaTime) maxUpdates
  all_goals simp [gameLoopStep, harg, h] <;> norm_num [targetFrameTime]

end SpaceInvaders
